import Mathlib

/-!
Shallow embedding of the djmarinara control loop
(`src/djmarinara/djmarinara.py`) and proofs about it.

The program is a single-threaded daemon.  All external effects (HTTP
fetches, ffmpeg/ffprobe invocations, wall clock, filesystem) are modelled
as explicit inputs (oracles); the mutable instance state of the
`djmarinara` class is modelled as an explicit record threaded through the
operations.  Wall-clock seconds and durations are modelled as rationals
(the Python floats), so clock-resolution epsilons disappear: the decay
identities hold exactly.
-/

namespace Djmarinara

/-- Mutable instance state of the `djmarinara` class that the control loop
touches: the constant-rate factor `self.crf`, the preset index
`self.preset`, the gas tank level `self.gastank` (seconds), the clock
bookkeeping `self.elapsedtime` / `self.starttime`, the segment counter
`self.filenumber`, and the last playlist hash `self.listhash`. -/
structure DJ where
  crf : Int
  preset : Int
  gastank : ℚ
  elapsedtime : ℚ
  starttime : ℚ
  filenumber : Nat
  listhash : String
deriving DecidableEq

/-- Lower bound for the constant-rate factor: `self.mincrf = 17` in
`djmarinara.__init__` ("Best quality with compression"). -/
def mincrf : Int := 17

/-- Upper bound for the constant-rate factor: `self.maxcrf = 28` in
`djmarinara.__init__` ("Worst acceptable quality"). -/
def maxcrf : Int := 28

/-- The nine encoder speed presets, `self.qualitypresets` in
`djmarinara.__init__`; index 0 is `ultrafast`. -/
def qualitypresets : List String :=
  ["ultrafast", "superfast", "veryfast", "faster", "fast", "medium", "slow",
   "slower", "veryslow"]

/-- Clamping as the source computes it: `djmarinara.clamp(n, minn, maxn) = max(min(maxn, n), minn)`. -/
def clamp (n minn maxn : Int) : Int := max (min maxn n) minn

/-- The quality-controller update performed at the end of a successful
`processFile` run (lines 267-281 of the source): the crf moves one step
toward the target and is clamped to `[mincrf, maxcrf]`; the preset index
moves one step only outside the `targetspeed ± 0.5` dead-band and only
while strictly inside `[0, 8]`. -/
def updateQuality (targetspeed : ℚ) (st : DJ) (ratio : ℚ) : DJ :=
  let crf1 := if ratio < targetspeed then st.crf + 1
              else if ratio > targetspeed then st.crf - 1
              else st.crf
  let crf2 := clamp crf1 mincrf maxcrf
  let preset1 :=
    if ratio < targetspeed - 1/2 ∧ st.preset > 0 then st.preset - 1
    else if ratio > targetspeed + 1/2 ∧ st.preset < 8 then st.preset + 1
    else st.preset
  { st with crf := crf2, preset := preset1 }

/-- State after `__init__` (crf = 17, preset = 0, listhash = "") followed by
`initRun` at wall time `now` (gastank = 0, elapsedtime = 0,
starttime = now) with the segment counter recovered from disk as `fn`. -/
def initState (now : ℚ) (fn : Nat) : DJ :=
  { crf := 17, preset := 0, gastank := 0, elapsedtime := 0, starttime := now,
    filenumber := fn, listhash := "" }

/-- The gas-tank tick `djmarinara.checkGas` at wall time `now`: recompute the elapsed time
since `starttime`, subtract the delta since the previous call from the
tank (no clamping), store the new bookkeeping and return the new level. -/
def checkGas (now : ℚ) (st : DJ) : ℚ × DJ :=
  let newelapsed := now - st.starttime
  let gasused := newelapsed - st.elapsedtime
  let g := st.gastank - gasused
  (g, { st with gastank := g, elapsedtime := newelapsed })

/-- The `self.gastank += float(filedata['duration'])` step of
`processFile` (line 260), and the only way the tank ever increases. -/
def addGas (d : ℚ) (st : DJ) : DJ := { st with gastank := st.gastank + d }

/-- Decision taken by one `playlistCheck` iteration: either attempt one
production cycle (`updatePlaylist`) or sleep for the given number of
seconds. -/
inductive PollAction where
  | produce : PollAction
  | sleep : ℚ → PollAction
deriving DecidableEq

/-- One iteration of `djmarinara.playlistCheck` (lines 128-147), with the
fetched list's md5 hash supplied as the input `newhash`: a changed hash
forces a production cycle without touching the gas tank; otherwise the
tank is ticked and production is admitted exactly when the level is below
`gastanklimit`; otherwise the loop sleeps for `self.gastank -
self.gastanklimit` seconds. -/
def playlistCheck (gastanklimit now : ℚ) (newhash : String) (st : DJ) :
    PollAction × DJ :=
  if newhash ≠ st.listhash then
    (PollAction.produce, { st with listhash := newhash })
  else
    let r := checkGas now st
    if r.1 < gastanklimit then (PollAction.produce, r.2)
    else (PollAction.sleep (r.2.gastank - gastanklimit), r.2)

/-- Decimal digit character, as in Python's `str` of a nonnegative int. -/
def digitChar (d : Nat) : Char := Char.ofNat (48 + d)

/-- Accumulator form of the decimal rendering of a natural number. -/
def natDigitsCore (n : Nat) (acc : List Char) : List Char :=
  if n < 10 then digitChar n :: acc
  else natDigitsCore (n / 10) (digitChar (n % 10) :: acc)
termination_by n
decreasing_by exact Nat.div_lt_self (by omega) (by omega)

/-- Characters of Python's `str(n)` for a natural number `n`. -/
def natDigits (n : Nat) : List Char := natDigitsCore n []

/-- Numeric value of an ASCII digit character. -/
def digitVal (c : Char) : Nat := c.toNat - 48

/-- Decimal value of a run of digit characters, as Python's `int` computes
it on an all-digit string. -/
def parseDigits (cs : List Char) : Nat :=
  cs.foldl (fun a c => a * 10 + digitVal c) 0

/-- One element of a sort key produced by `djmarinara.naturalKeys`: Python's
`re.split(r'(\d+)', text)` alternates (possibly empty) non-digit chunks
with digit runs, and `atoi` turns each digit run into an int. -/
inductive Tok where
  | str : List Char → Tok
  | num : Nat → Tok
deriving DecidableEq

/-- Tokenizer behind `djmarinara.naturalKeys` (lines 560-564): the key of a
string is the alternating list of (possibly empty) non-digit chunks and
parsed digit runs that Python's `re.split(r'(\d+)', text)` plus `atoi`
produce, always starting and ending with a (possibly empty) string
chunk. -/
def naturalKeysAux (cs : List Char) : List Tok :=
  let pre := cs.takeWhile (fun c => !c.isDigit)
  let rest := cs.dropWhile (fun c => !c.isDigit)
  if hr : rest = [] then [Tok.str pre]
  else
    Tok.str pre :: Tok.num (parseDigits (rest.takeWhile Char.isDigit)) ::
      naturalKeysAux (rest.dropWhile Char.isDigit)
termination_by cs.length
decreasing_by
  have hlen : ∀ (p : Char → Bool) (l : List Char),
      (l.dropWhile p).length ≤ l.length := by
    intro p l
    induction l with
    | nil => simp
    | cons a t ih =>
      rw [List.dropWhile_cons]
      split
      · exact le_trans ih (by simp)
      · simp
  have hhead : ∀ (p : Char → Bool) (l : List Char) (c : Char) (t : List Char),
      l.dropWhile p = c :: t → p c = false := by
    intro p l
    induction l with
    | nil => intro c t h; simp at h
    | cons a l2 ih =>
      intro c t h
      rw [List.dropWhile_cons] at h
      split at h
      · exact ih c t h
      · next hpa =>
        cases h
        simpa using hpa
  obtain ⟨c, t, h⟩ := List.exists_cons_of_ne_nil hr
  have h' : List.dropWhile (fun c => !c.isDigit) cs = c :: t := h
  have hd : (!c.isDigit) = false := hhead _ _ _ _ h'
  have h1 := hlen (fun c => !c.isDigit) cs
  rw [h'] at h1 ⊢
  rw [List.dropWhile_cons, if_pos (by simpa using hd)]
  have h2 := hlen Char.isDigit t
  simp only [List.length_cons] at h1
  omega

/-- The key function `djmarinara.naturalKeys` as a function on strings. -/
def naturalKeys (s : String) : List Tok := naturalKeysAux s.data

/-- Python's `<` on strings: lexicographic comparison by code point. -/
def strLt : List Char → List Char → Bool
  | [], [] => false
  | [], _ :: _ => true
  | _ :: _, [] => false
  | a :: as, b :: bs => if a < b then true else if b < a then false else strLt as bs

/-- Python's `<` on the elements of two `naturalKeys` keys.  Two keys
always alternate string and number chunks in the same positions, so the
mixed cases (on which Python would raise `TypeError`) are never reached
when comparing keys of this shape; they are given arbitrary values. -/
def tokLt : Tok → Tok → Bool
  | Tok.num a, Tok.num b => decide (a < b)
  | Tok.str a, Tok.str b => strLt a b
  | Tok.num _, Tok.str _ => true
  | Tok.str _, Tok.num _ => false

/-- Python's `<` on two sort keys (list lexicographic order). -/
def keyLt : List Tok → List Tok → Bool
  | [], [] => false
  | [], _ :: _ => true
  | _ :: _, [] => false
  | a :: as, b :: bs => if tokLt a b then true else if tokLt b a then false else keyLt as bs

/-- The ascending-order comparator realized by `filelist.sort(key=self.naturalKeys)`. -/
def naturalLe (a b : String) : Bool := !keyLt (naturalKeys b) (naturalKeys a)

/-- Python's `str(n)` for the segment counter, as a Lean string. -/
def natStr (n : Nat) : String := ⟨natDigits n⟩

/-- Name of an encoded segment: `'media' + filecount + '.flv'`
(`convertFile`, line 351). -/
def mediaName (n : Nat) : String := "media" ++ natStr n ++ ".flv"

/-- Name of a chain file: `'playlist' + str(number) + '.txt'`. -/
def playlistName (n : Nat) : String := "playlist" ++ natStr n ++ ".txt"

/-- Name of the overlay text file: `'media' + filecount + '.txt'`
(`convertFile`, line 352). -/
def textName (n : Nat) : String := "media" ++ natStr n ++ ".txt"

/-- The digit-filtering id recovery `int(''.join(list(filter(str.isdigit,
file))))` used by `cleanCache` and `getFileNumber`.  (Python's `int` would
raise on a digit-free name; the model returns 0 there, and every name it
is applied to below contains a digit run.) -/
def extractNumber (s : String) : Nat := parseDigits (s.data.filter Char.isDigit)

/-- A `media<N>.flv` segment file in the served directory, with its byte
size and last-modified time. -/
structure MediaFile where
  id : Nat
  size : Nat
  mtime : ℚ
deriving DecidableEq

/-- State of the served directory and of the encoder's working directory
as seen by `cleanCache`: the present segment files, the numbers of the
present `playlist<N>.txt` chain files, the names in the working
directory, and the filesystem occupancy outside the segments (`otherUsed`
of `total` bytes, as `shutil.disk_usage` reports). -/
structure DirState where
  mediaFiles : List MediaFile
  chainIds : List Nat
  workFiles : List String
  otherUsed : Nat
  total : Nat
deriving DecidableEq

/-- Sorting `filelist.sort(key=self.naturalKeys)` over the globbed `media*.flv`
paths.  The glob returns `<mediapath>/media<N>.flv`; with the digit-free
default `mediapath = /media` the path key is the basename key with a
longer first string chunk, so the comparison is decided by the same
numeric chunk, and the model keys on the basename. -/
def sortMedia (files : List MediaFile) : List MediaFile :=
  files.mergeSort fun f g => naturalLe (mediaName f.id) (mediaName g.id)

/-- Sorting `filelist.sort(key=self.naturalKeys)` over the globbed
`playlist*.txt` paths, by chain number. -/
def sortChains (ids : List Nat) : List Nat :=
  ids.mergeSort fun a b => naturalLe (playlistName a) (playlistName b)

/-- Bytes reported used by `shutil.disk_usage(self.mediapath)`: the rest
of the filesystem plus the present segment files. -/
def usedBytes (other : Nat) (files : List MediaFile) : Nat :=
  other + (files.map fun f => f.size).sum

/-- The age pass of `cleanCache` (lines 519-529): walk the naturally
sorted segment list; every segment whose mtime is older than the
90-minute window is deleted together with `playlist<N>.txt`, `N`
recovered by digit-filtering the name.  Returns the kept files and the
removed numbers in visit order. -/
def agePassGo (timeago : ℚ) : List MediaFile → List MediaFile × List Nat
  | [] => ([], [])
  | f :: rest =>
    let r := agePassGo timeago rest
    if f.mtime < timeago then (r.1, extractNumber (mediaName f.id) :: r.2)
    else (f :: r.1, r.2)

/-- The usage pass of `cleanCache` (lines 530-549): while the used
fraction strictly exceeds 0.8 (exactly: `5 * used > 4 * total`), pop the
naturally-first remaining segment, delete it and its chain file, and
recompute disk usage; popping an empty list instead returns.  (The
source's empty-list `return` and the loop exit coincide on `[]`: both
remove nothing further.)  Returns the kept files and the removed numbers
in removal order. -/
def usagePassGo (other total : Nat) : List MediaFile → List MediaFile × List Nat
  | [] => ([], [])
  | f :: rest =>
    if 4 * total < 5 * usedBytes other (f :: rest) then
      let r := usagePassGo other total rest
      (r.1, extractNumber (mediaName f.id) :: r.2)
    else (f :: rest, [])

/-- Which directory a removed file lived in. -/
inductive Loc where
  | media : Loc
  | work : Loc
deriving DecidableEq

/-- Names removed by the age and usage passes: each removed number takes
out `media<N>.flv` and `playlist<N>.txt` from the served directory. -/
def removedNames (ids : List Nat) : List (Loc × String) :=
  ids.flatMap fun n => [(Loc.media, mediaName n), (Loc.media, playlistName n)]

/-- Modelled from the spec: the contents of the `manifest` file loaded in
`__init__` are not part of the sources.  The spec describes the Manifest
as the allow-list protecting long-lived working-directory assets such as
the overlay font and the executable/config itself, matching the source
comment at line 552, `Only keep font.ttf and djmarinara.py`. -/
def manifestSpec : List String := ["font.ttf", "djmarinara.py"]

/-- The eviction routine `djmarinara.cleanCache` (lines 518-558): age pass over the naturally
sorted segments, usage pass over the re-globbed sorted remainder, then
the stray sweep deleting every working-directory file whose name is not
in the manifest.  Returns the new directory state and the log of removed
files.  (The source's `os.remove` on a chain file assumes the matching
`playlist<N>.txt` exists; the model removes it when present.) -/
def cleanCache (now : ℚ) (manifest : List String) (st : DirState) :
    DirState × List (Loc × String) :=
  let r1 := agePassGo (now - 5400) (sortMedia st.mediaFiles)
  let r2 := usagePassGo st.otherUsed st.total (sortMedia r1.1)
  let removedIds := r1.2 ++ r2.2
  ({ st with mediaFiles := r2.1,
             chainIds := st.chainIds.filter fun n => !removedIds.contains n,
             workFiles := st.workFiles.filter fun f => manifest.contains f },
   removedNames removedIds ++
     (st.workFiles.filter fun f => !manifest.contains f).map fun f => (Loc.work, f))

/-- The contents of a chain file as written by the daemon: the
`ffconcat version 1.0` marker line, then `file <asset>`, then
`file <next>`. -/
structure ChainWrite where
  name : String
  asset : String
  next : String
deriving DecidableEq

/-- The entry-pointer advance `djmarinara.updateStartup` (lines 497-516): sort the present
`playlist*.txt` files naturally, `pop(0)` the bootstrap slot, and rewrite
`playlist0.txt` to play `startup.flv` followed by the now-oldest chain
file; if nothing is left after the drop, the except clause changes
nothing.  (On a directory with no playlist files at all the Python
`pop(0)` itself would raise IndexError; `sanityCheck` guarantees the
bootstrap chain files exist before this runs, which the theorems assume
as `0 ∈ chainIds`.) -/
def updateStartup (chainIds : List Nat) : Option ChainWrite :=
  match (sortChains chainIds).drop 1 with
  | [] => none
  | k :: _ =>
    some { name := "playlist0.txt", asset := "startup.flv",
           next := playlistName k }

/-- Python's `choice.split(".")`: the dot-separated chunks of a string,
always at least one (possibly empty) chunk. -/
def splitOnDot : List Char → List (List Char)
  | [] => [[]]
  | c :: cs =>
    let r := splitOnDot cs
    if c = '.' then [] :: r
    else
      match r with
      | [] => [[c]]
      | h :: t => (c :: h) :: t

/-- The extension test input `choice.split(".")[-1].lower()` from
`updatePlaylist` (line 483). -/
def extOf (s : String) : String :=
  ⟨((splitOnDot s.data).getLastD []).map Char.toLower⟩

/-- Fields `ffprobe` may report for a candidate (`convertFile`,
lines 314-340). -/
structure ProbeData where
  filename? : Option String
  title? : Option String
  artist? : Option String
  comment? : Option String
  duration? : Option ℚ
deriving DecidableEq

/-- Outcome oracle for the external effects of one `processFile` attempt:
whether the download raised, the local source file after zip handling
(`""` when acquisition yielded nothing), the probe report, the duration
re-measured after the first (audio) conversion, the size of the encoded
output, whether `shutil.copy` into the served directory raised, and the
wall-clock seconds the whole attempt took (`processtook`). -/
structure ProcEnv where
  fetchOk : Bool
  sourcefile : String
  probe : ProbeData
  newduration : ℚ
  outputSize : Nat
  copyOk : Bool
  wallTime : ℚ
deriving DecidableEq

/-- The dictionary `convertFile` hands back on success: the
`media<N>.flv` name it encoded to and the re-measured duration. -/
structure FileData where
  playfile : String
  duration : ℚ
deriving DecidableEq

/-- Longest admissible song: `self.maxlength = gastanklimit / 2.0` from `__init__` (line 60). -/
def maxlength (gastanklimit : ℚ) : ℚ := gastanklimit / 2

/-- The conversion step `djmarinara.convertFile` (lines 291-440) over the oracle: reject on a
missing probe filename, missing title, missing duration, probed duration
strictly exceeding `maxlength`, or a zero-size encoded output; otherwise
the candidate becomes `media<filenumber+1>.flv` carrying the re-measured
duration.  The function reads the controller state only through
`filenumber` (and the encoder settings), mutating nothing. -/
def convertFile (maxlen : ℚ) (filenumber : Nat) (env : ProcEnv) :
    Option FileData :=
  match env.probe.filename? with
  | none => none
  | some _ =>
    match env.probe.title? with
    | none => none
    | some _ =>
      match env.probe.duration? with
      | none => none
      | some d =>
        if maxlen < d then none
        else if env.outputSize = 0 then none
        else some { playfile := mediaName (filenumber + 1),
                    duration := env.newduration }

/-- The acquisition-and-encode step `djmarinara.processFile` (lines 206-289) over the oracle.  A download
exception, an empty acquisition, a `convertFile` rejection, or a copy
exception returns 0 before any controller state is touched (the
`except` clause at line 283 turns any raise inside the `with` block into
`return 0`).  On success, in source order: `filenumber` increments, the
chain file `playlist<n>.txt` referencing the new video and the
not-yet-written `playlist<n+1>.txt` is recorded, the duration refills the
gas tank, and the quality controller updates on
`ratio = duration / processtook`. -/
def processFile (gastanklimit targetspeed : ℚ) (st : DJ) (env : ProcEnv) :
    DJ × Nat × List ChainWrite :=
  if env.fetchOk = false then (st, 0, [])
  else if env.sourcefile = "" then (st, 0, [])
  else
    match convertFile (maxlength gastanklimit) st.filenumber env with
    | none => (st, 0, [])
    | some fd =>
      if env.copyOk = false then (st, 0, [])
      else
        let st1 := { st with filenumber := st.filenumber + 1 }
        let w : ChainWrite := { name := playlistName st1.filenumber,
                                asset := fd.playfile,
                                next := playlistName (st1.filenumber + 1) }
        let st2 := addGas fd.duration st1
        let ratio := fd.duration / env.wallTime
        (updateQuality targetspeed st2 ratio, 1, [w])

/-- One production cycle, `djmarinara.updatePlaylist` (lines 477-495),
over an oracle pairing each `random.choice` pick (an index into the line
list; out-of-range indices denote lines the model does not track and
yield `""`, which no allow-list matches) with the external outcome of the
attempt.  A pick whose extension is not in the allow-list is skipped
without calling `processFile`; a failed attempt retries; a successful one
ends the cycle.  Returns the final controller state, the queued candidate
(`none` when the oracle ran out), and the candidates actually handed to
`processFile`. -/
def updatePlaylistRun (gastanklimit targetspeed : ℚ)
    (exts lines : List String) (st : DJ) :
    List (Nat × ProcEnv) → DJ × Option String × List String
  | [] => (st, none, [])
  | (i, env) :: rest =>
    let choice := lines.getD i ""
    if extOf choice ∈ exts then
      let r := processFile gastanklimit targetspeed st env
      if r.2.1 = 0 then
        let r2 := updatePlaylistRun gastanklimit targetspeed exts lines r.1 rest
        (r2.1, r2.2.1, choice :: r2.2.2)
      else (r.1, some choice, [choice])
    else updatePlaylistRun gastanklimit targetspeed exts lines st rest

/-- An oracle entry in which every external step succeeds and the
candidate passes every check. -/
def goodEnv (gastanklimit : ℚ) (env : ProcEnv) : Prop :=
  env.fetchOk = true ∧ env.sourcefile ≠ "" ∧
  (∃ f, env.probe.filename? = some f) ∧
  (∃ t, env.probe.title? = some t) ∧
  (∃ d, env.probe.duration? = some d ∧ ¬ maxlength gastanklimit < d) ∧
  env.outputSize ≠ 0 ∧ env.copyOk = true

lemma clamp_le_max (n : Int) : mincrf ≤ clamp n mincrf maxcrf ∧
    clamp n mincrf maxcrf ≤ maxcrf := by
  simp only [clamp, mincrf, maxcrf]
  omega

/-- The quality bounds are preserved by a single controller update. -/
lemma updateQuality_inv (target ratio : ℚ) (st : DJ)
    (h0 : 0 ≤ st.preset) (h8 : st.preset ≤ 8) :
    17 ≤ (updateQuality target st ratio).crf ∧
    (updateQuality target st ratio).crf ≤ 28 ∧
    0 ≤ (updateQuality target st ratio).preset ∧
    (updateQuality target st ratio).preset ≤ 8 := by
  unfold updateQuality
  refine ⟨(clamp_le_max _).1, (clamp_le_max _).2, ?_, ?_⟩ <;>
    dsimp only <;> split <;> omega

lemma foldl_quality_inv (target : ℚ) (ratios : List ℚ) (st : DJ)
    (h : 17 ≤ st.crf ∧ st.crf ≤ 28 ∧ 0 ≤ st.preset ∧ st.preset ≤ 8) :
    17 ≤ (ratios.foldl (updateQuality target) st).crf ∧
    (ratios.foldl (updateQuality target) st).crf ≤ 28 ∧
    0 ≤ (ratios.foldl (updateQuality target) st).preset ∧
    (ratios.foldl (updateQuality target) st).preset ≤ 8 := by
  induction ratios generalizing st with
  | nil => exact h
  | cons r rs ih =>
    refine ih _ ?_
    have := updateQuality_inv target r st h.2.2.1 h.2.2.2
    exact ⟨this.1, this.2.1, this.2.2.1, this.2.2.2⟩

/-- C1: starting from the initial state (preset index 0, crf = mincrf =
17), feeding the quality controller any sequence of observed throughput
ratios leaves the crf within [17, 28] = [mincrf, maxcrf] and the preset
index within [0, 8]. -/
theorem c1_quality_bounds (target : ℚ) (ratios : List ℚ) (now : ℚ) (fn : Nat) :
    17 ≤ (ratios.foldl (updateQuality target) (initState now fn)).crf ∧
    (ratios.foldl (updateQuality target) (initState now fn)).crf ≤ 28 ∧
    0 ≤ (ratios.foldl (updateQuality target) (initState now fn)).preset ∧
    (ratios.foldl (updateQuality target) (initState now fn)).preset ≤ 8 := by
  exact foldl_quality_inv target ratios _ (by simp [initState])

/-- C2: between two consecutive `checkGas` calls with no intervening
`addGas`, the returned level drops by exactly the wall-clock time elapsed
between the calls (exact, since time is modelled rationally), and the
level is never clamped: from a tank holding 3600 seconds, adding a
120-second segment and then calling `checkGas` after 4000 further seconds
of wall time returns exactly -280 ≤ -280. -/
theorem c2_gas_decay (st : DJ) (t1 t2 : ℚ) (e t0 : ℚ) (fn : Nat) (h : String) :
    (checkGas t2 (checkGas t1 st).2).1 = (checkGas t1 st).1 - (t2 - t1) ∧
    (checkGas (t0 + e + 4000)
      (addGas 120
        { crf := 17, preset := 0, gastank := 3600, elapsedtime := e,
          starttime := t0, filenumber := fn, listhash := h })).1 = -280 ∧
    (checkGas (t0 + e + 4000)
      (addGas 120
        { crf := 17, preset := 0, gastank := 3600, elapsedtime := e,
          starttime := t0, filenumber := fn, listhash := h })).1 ≤ -280 := by
  refine ⟨?_, ?_, ?_⟩
  · simp [checkGas]
  · simp [checkGas, addGas]; ring
  · simp [checkGas, addGas]; linarith

/-- C3: one `playlistCheck` iteration on the fetched list's hash: a changed
hash triggers production immediately with the gas tank untouched; an
unchanged hash triggers production exactly when the ticked level is below
the limit; otherwise the loop sleeps for exactly the overage of the
returned level above the limit. -/
theorem c3_admission (gastanklimit now : ℚ) (newhash : String) (st : DJ) :
    (newhash ≠ st.listhash →
      playlistCheck gastanklimit now newhash st =
        (PollAction.produce, { st with listhash := newhash })) ∧
    (newhash = st.listhash → (checkGas now st).1 < gastanklimit →
      playlistCheck gastanklimit now newhash st =
        (PollAction.produce, (checkGas now st).2)) ∧
    (newhash = st.listhash → gastanklimit ≤ (checkGas now st).1 →
      playlistCheck gastanklimit now newhash st =
        (PollAction.sleep ((checkGas now st).1 - gastanklimit),
         (checkGas now st).2)) := by
  refine ⟨fun hne => ?_, fun he hlt => ?_, fun he hge => ?_⟩
  · simp [playlistCheck, hne]
  · simp [playlistCheck, he, hlt]
  · have h2 : ¬ (checkGas now st).1 < gastanklimit := not_lt.mpr hge
    simp only [playlistCheck, he, h2]
    simp
    rfl

/-- Witness for C3: the three branches at concrete inputs. -/
theorem c3_admission_witness :
    (playlistCheck 3600 0 "x"
        { crf := 17, preset := 0, gastank := 0, elapsedtime := 0,
          starttime := 0, filenumber := 0, listhash := "" } =
      (PollAction.produce,
        { crf := 17, preset := 0, gastank := 0, elapsedtime := 0,
          starttime := 0, filenumber := 0, listhash := "x" })) ∧
    (playlistCheck 3600 10 ""
        { crf := 17, preset := 0, gastank := 0, elapsedtime := 0,
          starttime := 0, filenumber := 0, listhash := "" } =
      (PollAction.produce,
        (checkGas 10
          { crf := 17, preset := 0, gastank := 0, elapsedtime := 0,
            starttime := 0, filenumber := 0, listhash := "" }).2)) ∧
    (playlistCheck 3600 10 ""
        { crf := 17, preset := 0, gastank := 5000, elapsedtime := 0,
          starttime := 0, filenumber := 0, listhash := "" } =
      (PollAction.sleep 1390,
        (checkGas 10
          { crf := 17, preset := 0, gastank := 5000, elapsedtime := 0,
            starttime := 0, filenumber := 0, listhash := "" }).2)) := by
  refine ⟨(c3_admission 3600 0 "x" _).1 (by decide), ?_, ?_⟩
  · have := (c3_admission 3600 10 ""
      { crf := 17, preset := 0, gastank := 0, elapsedtime := 0,
        starttime := 0, filenumber := 0, listhash := "" }).2.1 rfl
      (by norm_num [checkGas])
    exact this
  · have := (c3_admission 3600 10 ""
      { crf := 17, preset := 0, gastank := 5000, elapsedtime := 0,
        starttime := 0, filenumber := 0, listhash := "" }).2.2 rfl
      (by norm_num [checkGas])
    rw [this]
    norm_num [checkGas]

lemma digitChar_isDigit {d : Nat} (h : d < 10) :
    (digitChar d).isDigit = true := by
  interval_cases d <;> decide

lemma digitVal_digitChar {d : Nat} (h : d < 10) : digitVal (digitChar d) = d := by
  interval_cases d <;> decide

lemma natDigitsCore_eq (n : Nat) : ∀ acc, natDigitsCore n acc = natDigits n ++ acc := by
  induction n using Nat.strong_induction_on with
  | _ n ih =>
    intro acc
    rw [natDigits]
    unfold natDigitsCore
    split
    · simp
    · next h =>
      rw [ih (n / 10) (Nat.div_lt_self (by omega) (by omega)),
          ih (n / 10) (Nat.div_lt_self (by omega) (by omega))]
      simp

lemma natDigits_of_ge (n : Nat) (h : ¬ n < 10) :
    natDigits n = natDigits (n / 10) ++ [digitChar (n % 10)] := by
  rw [natDigits]
  unfold natDigitsCore
  rw [if_neg h, natDigitsCore_eq]

lemma natDigits_all_digit (n : Nat) : ∀ c ∈ natDigits n, c.isDigit = true := by
  induction n using Nat.strong_induction_on with
  | _ n ih =>
    by_cases h : n < 10
    · rw [natDigits]
      unfold natDigitsCore
      rw [if_pos h]
      intro c hc
      simp only [List.mem_singleton] at hc
      subst hc
      exact digitChar_isDigit h
    · rw [natDigits_of_ge n h]
      intro c hc
      rcases List.mem_append.mp hc with hc | hc
      · exact ih (n / 10) (Nat.div_lt_self (by omega) (by omega)) c hc
      · simp only [List.mem_singleton] at hc
        subst hc
        exact digitChar_isDigit (Nat.mod_lt _ (by omega))

lemma natDigits_ne_nil (n : Nat) : natDigits n ≠ [] := by
  by_cases h : n < 10
  · rw [natDigits]
    unfold natDigitsCore
    rw [if_pos h]
    simp
  · rw [natDigits_of_ge n h]
    simp

lemma parseDigits_append_one (cs : List Char) (c : Char) :
    parseDigits (cs ++ [c]) = parseDigits cs * 10 + digitVal c := by
  simp [parseDigits, List.foldl_append]

lemma parseDigits_natDigits (n : Nat) : parseDigits (natDigits n) = n := by
  induction n using Nat.strong_induction_on with
  | _ n ih =>
    by_cases h : n < 10
    · rw [natDigits]
      unfold natDigitsCore
      rw [if_pos h]
      simp [parseDigits, digitVal_digitChar h]
    · rw [natDigits_of_ge n h, parseDigits_append_one,
          ih (n / 10) (Nat.div_lt_self (by omega) (by omega)),
          digitVal_digitChar (Nat.mod_lt _ (by omega))]
      omega

lemma takeWhile_all {p : Char → Bool} {l : List Char}
    (h : ∀ c ∈ l, p c = true) : l.takeWhile p = l := by
  induction l with
  | nil => rfl
  | cons a t ih =>
    rw [List.takeWhile_cons, if_pos (h a (by simp))]
    rw [ih fun c hc => h c (by simp [hc])]

lemma dropWhile_all {p : Char → Bool} {l : List Char}
    (h : ∀ c ∈ l, p c = true) : l.dropWhile p = [] := by
  induction l with
  | nil => rfl
  | cons a t ih =>
    rw [List.dropWhile_cons, if_pos (h a (by simp))]
    exact ih fun c hc => h c (by simp [hc])

lemma takeWhile_append_all {p : Char → Bool} {l1 l2 : List Char}
    (h : ∀ c ∈ l1, p c = true) :
    (l1 ++ l2).takeWhile p = l1 ++ l2.takeWhile p := by
  induction l1 with
  | nil => rfl
  | cons a t ih =>
    rw [List.cons_append, List.takeWhile_cons, if_pos (h a (by simp)),
        ih fun c hc => h c (by simp [hc]), List.cons_append]

lemma dropWhile_append_all {p : Char → Bool} {l1 l2 : List Char}
    (h : ∀ c ∈ l1, p c = true) :
    (l1 ++ l2).dropWhile p = l2.dropWhile p := by
  induction l1 with
  | nil => rfl
  | cons a t ih =>
    rw [List.cons_append, List.dropWhile_cons, if_pos (h a (by simp))]
    exact ih fun c hc => h c (by simp [hc])

lemma takeWhile_cons_neg {p : Char → Bool} {a : Char} (t : List Char)
    (h : p a = false) : (a :: t).takeWhile p = [] := by
  rw [List.takeWhile_cons, if_neg (by simp [h])]

lemma dropWhile_cons_neg {p : Char → Bool} {a : Char} (t : List Char)
    (h : p a = false) : (a :: t).dropWhile p = a :: t := by
  rw [List.dropWhile_cons, if_neg (by simp [h])]

lemma naturalKeysAux_nodigit (s : List Char)
    (hs : ∀ c ∈ s, c.isDigit = false) : naturalKeysAux s = [Tok.str s] := by
  have h1 : s.takeWhile (fun c => !c.isDigit) = s :=
    takeWhile_all (by simpa using hs)
  have h2 : s.dropWhile (fun c => !c.isDigit) = [] :=
    dropWhile_all (by simpa using hs)
  unfold naturalKeysAux
  simp [h1, h2]

/-- How `naturalKeys` splits a name of the shape
non-digit-chunk ++ digit-run ++ non-digit-chunk. -/
lemma naturalKeysAux_split (p d s : List Char)
    (hp : ∀ c ∈ p, c.isDigit = false) (hd0 : d ≠ [])
    (hd : ∀ c ∈ d, c.isDigit = true) (hs : ∀ c ∈ s, c.isDigit = false) :
    naturalKeysAux (p ++ (d ++ s)) =
      [Tok.str p, Tok.num (parseDigits d), Tok.str s] := by
  obtain ⟨c, d', rfl⟩ := List.exists_cons_of_ne_nil hd0
  have hc : c.isDigit = true := hd c (by simp)
  have htake : (p ++ (c :: d' ++ s)).takeWhile (fun c => !c.isDigit) = p := by
    rw [takeWhile_append_all (by simpa using hp), List.cons_append,
        takeWhile_cons_neg _ (by simp [hc]), List.append_nil]
  have hdrop : (p ++ (c :: d' ++ s)).dropWhile (fun c => !c.isDigit) =
      c :: (d' ++ s) := by
    rw [dropWhile_append_all (by simpa using hp), List.cons_append,
        dropWhile_cons_neg _ (by simp [hc])]
  have hrun : (c :: (d' ++ s)).takeWhile Char.isDigit = c :: d' := by
    rw [List.takeWhile_cons, if_pos hc,
        takeWhile_append_all fun x hx => hd x (by simp [hx])]
    cases s with
    | nil => simp
    | cons a t => rw [takeWhile_cons_neg _ (hs a (by simp)), List.append_nil]
  have hrest : (c :: (d' ++ s)).dropWhile Char.isDigit = s := by
    rw [List.dropWhile_cons, if_pos hc,
        dropWhile_append_all fun x hx => hd x (by simp [hx])]
    cases s with
    | nil => rfl
    | cons a t => exact dropWhile_cons_neg _ (hs a (by simp))
  unfold naturalKeysAux
  simp only [htake, hdrop]
  rw [dif_neg (by simp), hrun, hrest, naturalKeysAux_nodigit s hs]

lemma strLt_irrefl (l : List Char) : strLt l l = false := by
  induction l with
  | nil => rfl
  | cons a t ih => simp [strLt, ih]

lemma keyLt_pattern (p s : List Char) (a b : Nat) :
    keyLt [Tok.str p, Tok.num a, Tok.str s]
      [Tok.str p, Tok.num b, Tok.str s] = decide (a < b) := by
  simp only [keyLt, tokLt, strLt_irrefl, if_neg Bool.false_ne_true]
  by_cases h : a < b
  · simp [h]
  · by_cases h2 : b < a <;> simp [h, h2] <;> omega

lemma naturalKeys_affix (pre suf : String)
    (hp : ∀ c ∈ pre.data, c.isDigit = false)
    (hs : ∀ c ∈ suf.data, c.isDigit = false) (n : Nat) :
    naturalKeys (pre ++ natStr n ++ suf) =
      [Tok.str pre.data, Tok.num n, Tok.str suf.data] := by
  have hdata : (pre ++ natStr n ++ suf).data =
      pre.data ++ (natDigits n ++ suf.data) := by
    simp [natStr, String.data_append]
  rw [naturalKeys, hdata,
      naturalKeysAux_split pre.data (natDigits n) suf.data hp
        (natDigits_ne_nil n) (natDigits_all_digit n) hs,
      parseDigits_natDigits]

lemma naturalLe_affix (pre suf : String)
    (hp : ∀ c ∈ pre.data, c.isDigit = false)
    (hs : ∀ c ∈ suf.data, c.isDigit = false) (a b : Nat) :
    naturalLe (pre ++ natStr a ++ suf) (pre ++ natStr b ++ suf) =
      decide (a ≤ b) := by
  rw [naturalLe, naturalKeys_affix pre suf hp hs, naturalKeys_affix pre suf hp hs,
      keyLt_pattern]
  by_cases h : b < a <;> simp [h] <;> omega

lemma naturalLe_mediaName (a b : Nat) :
    naturalLe (mediaName a) (mediaName b) = decide (a ≤ b) :=
  naturalLe_affix "media" ".flv" (by decide) (by decide) a b

lemma naturalLe_playlistName (a b : Nat) :
    naturalLe (playlistName a) (playlistName b) = decide (a ≤ b) :=
  naturalLe_affix "playlist" ".txt" (by decide) (by decide) a b

lemma extractNumber_affix (pre suf : String)
    (hp : ∀ c ∈ pre.data, c.isDigit = false)
    (hs : ∀ c ∈ suf.data, c.isDigit = false) (n : Nat) :
    extractNumber (pre ++ natStr n ++ suf) = n := by
  have hdata : (pre ++ natStr n ++ suf).data =
      pre.data ++ (natDigits n ++ suf.data) := by
    simp [natStr, String.data_append]
  rw [extractNumber, hdata, List.filter_append, List.filter_append,
      (@List.filter_eq_nil_iff _ _ pre.data).mpr (fun c hc => by simp [hp c hc]),
      (@List.filter_eq_nil_iff _ _ suf.data).mpr (fun c hc => by simp [hs c hc]),
      List.filter_eq_self.mpr (natDigits_all_digit n)]
  simp [parseDigits_natDigits]

lemma extractNumber_mediaName (n : Nat) : extractNumber (mediaName n) = n :=
  extractNumber_affix "media" ".flv" (by decide) (by decide) n

lemma extractNumber_playlistName (n : Nat) : extractNumber (playlistName n) = n :=
  extractNumber_affix "playlist" ".txt" (by decide) (by decide) n

lemma sortMedia_eq (files : List MediaFile) :
    sortMedia files = files.mergeSort fun f g => decide (f.id ≤ g.id) := by
  unfold sortMedia
  congr 1
  funext f g
  rw [naturalLe_mediaName]

lemma sortMedia_perm (files : List MediaFile) :
    (sortMedia files).Perm files := List.mergeSort_perm _ _

lemma sortMedia_sorted (files : List MediaFile) :
    List.Pairwise (fun f g : MediaFile => f.id ≤ g.id) (sortMedia files) := by
  rw [sortMedia_eq]
  have h := @List.sorted_mergeSort _ (fun f g : MediaFile => decide (f.id ≤ g.id))
    (fun a b c hab hbc => by simp at hab hbc ⊢; omega)
    (fun a b => by simp; omega) files
  exact h.imp fun hab => by simpa using hab

lemma sortChains_eq (ids : List Nat) :
    sortChains ids = ids.mergeSort fun a b => decide (a ≤ b) := by
  unfold sortChains
  congr 1
  funext a b
  rw [naturalLe_playlistName]

lemma sortChains_perm (ids : List Nat) : (sortChains ids).Perm ids :=
  List.mergeSort_perm _ _

lemma sortChains_sorted (ids : List Nat) :
    List.Pairwise (fun a b : Nat => a ≤ b) (sortChains ids) := by
  rw [sortChains_eq]
  have h := @List.sorted_mergeSort _ (fun a b : Nat => decide (a ≤ b))
    (fun a b c hab hbc => by simp at hab hbc ⊢; omega)
    (fun a b => by simp; omega) ids
  exact h.imp fun hab => by simpa using hab

lemma usagePassGo_spec (other total : Nat) (files : List MediaFile) :
    ∃ k, k ≤ files.length ∧
      usagePassGo other total files =
        (files.drop k, (files.take k).map fun f => f.id) ∧
      (∀ j, j < k → 4 * total < 5 * usedBytes other (files.drop j)) ∧
      (files.drop k = [] ∨ 5 * usedBytes other (files.drop k) ≤ 4 * total) := by
  induction files with
  | nil => exact ⟨0, by simp [usagePassGo]⟩
  | cons f rest ih =>
    by_cases h : 4 * total < 5 * usedBytes other (f :: rest)
    · obtain ⟨k, hk, heq, hover, hstop⟩ := ih
      refine ⟨k + 1, by simpa using hk, ?_, ?_, ?_⟩
      · simp only [usagePassGo, if_pos h, heq, extractNumber_mediaName,
          List.drop_succ_cons, List.take_succ_cons, List.map_cons]
      · intro j hj
        cases j with
        | zero => simpa using h
        | succ j' => simpa using hover j' (by omega)
      · simpa using hstop
    · refine ⟨0, by simp, by simp [usagePassGo, h], by omega,
        Or.inr (by rw [List.drop_zero]; omega)⟩

/-- C4: the usage pass of `cleanCache` pops the lowest-numbered remaining
segment (natural numeric order of the `media<N>.flv` names) while usage
strictly exceeds 0.8, recomputing usage after each removal; it stops as
soon as usage is at or below the threshold or the segment list is
exhausted, returning silently in the latter case; each removed number
takes its matching `playlist<N>.txt` with it. -/
theorem c4_usage_pass (other total : Nat) (files : List MediaFile) :
    ∃ k,
      usagePassGo other total (sortMedia files) =
        ((sortMedia files).drop k,
         ((sortMedia files).take k).map fun f => f.id) ∧
      (∀ j, j < k → 4 * total < 5 * usedBytes other ((sortMedia files).drop j)) ∧
      ((sortMedia files).drop k = [] ∨
        5 * usedBytes other ((sortMedia files).drop k) ≤ 4 * total) ∧
      (∀ f ∈ (sortMedia files).take k, ∀ g ∈ (sortMedia files).drop k,
        f.id ≤ g.id) ∧
      (∀ n ∈ ((sortMedia files).take k).map fun f => f.id,
        (Loc.media, mediaName n) ∈
          removedNames (((sortMedia files).take k).map fun f => f.id) ∧
        (Loc.media, playlistName n) ∈
          removedNames (((sortMedia files).take k).map fun f => f.id)) := by
  obtain ⟨k, hk, heq, hover, hstop⟩ := usagePassGo_spec other total (sortMedia files)
  refine ⟨k, heq, hover, hstop, ?_, ?_⟩
  · intro a ha g hg
    have hs : List.Pairwise (fun f g : MediaFile => f.id ≤ g.id)
        ((sortMedia files).take k ++ (sortMedia files).drop k) := by
      rw [List.take_append_drop]
      exact sortMedia_sorted files
    exact (List.pairwise_append.mp hs).2.2 a ha g hg
  · intro n hn
    exact ⟨List.mem_flatMap.mpr ⟨n, hn, by simp⟩,
           List.mem_flatMap.mpr ⟨n, hn, by simp⟩⟩

/-- Witness for C4 at a concrete directory: one 30-byte segment with 90
other bytes on a 100-byte filesystem; usage is over threshold, the single
segment is evicted, and the exhausted pass returns silently even though
usage is still over 80%. -/
theorem c4_usage_pass_witness :
    (usagePassGo 90 100 (sortMedia [{ id := 1, size := 30, mtime := 0 }]) =
      ([], [1])) ∧
    (∃ k,
      usagePassGo 90 100 (sortMedia [{ id := 1, size := 30, mtime := 0 }]) =
        ((sortMedia [{ id := 1, size := 30, mtime := 0 }]).drop k,
         ((sortMedia [{ id := 1, size := 30, mtime := 0 }]).take k).map
           fun f => f.id) ∧
      (∀ j, j < k → 4 * 100 < 5 * usedBytes 90
        ((sortMedia [{ id := 1, size := 30, mtime := 0 }]).drop j)) ∧
      ((sortMedia [{ id := 1, size := 30, mtime := 0 }]).drop k = [] ∨
        5 * usedBytes 90
          ((sortMedia [{ id := 1, size := 30, mtime := 0 }]).drop k) ≤ 4 * 100) ∧
      (∀ f ∈ (sortMedia [{ id := 1, size := 30, mtime := 0 }]).take k,
        ∀ g ∈ (sortMedia [{ id := 1, size := 30, mtime := 0 }]).drop k,
          f.id ≤ g.id) ∧
      (∀ n ∈ ((sortMedia [{ id := 1, size := 30, mtime := 0 }]).take k).map
          fun f => f.id,
        (Loc.media, mediaName n) ∈
          removedNames (((sortMedia [{ id := 1, size := 30, mtime := 0 }]).take
            k).map fun f => f.id) ∧
        (Loc.media, playlistName n) ∈
          removedNames (((sortMedia [{ id := 1, size := 30, mtime := 0 }]).take
            k).map fun f => f.id))) :=
  ⟨by simp [sortMedia, usagePassGo, usedBytes, extractNumber_mediaName],
   c4_usage_pass 90 100 _⟩

lemma head_mediaName (n : Nat) : (mediaName n).data.head? = some 'm' := by
  have hdata : (mediaName n).data = "media".data ++ (natDigits n ++ ".flv".data) := by
    simp [mediaName, natStr, String.data_append]
  rw [hdata]
  rfl

lemma head_playlistName (n : Nat) : (playlistName n).data.head? = some 'p' := by
  have hdata : (playlistName n).data =
      "playlist".data ++ (natDigits n ++ ".txt".data) := by
    simp [playlistName, natStr, String.data_append]
  rw [hdata]
  rfl

lemma mediaName_notin_manifestSpec (n : Nat) : mediaName n ∉ manifestSpec := by
  intro h
  have hh := head_mediaName n
  rcases (by simpa [manifestSpec] using h :
      mediaName n = "font.ttf" ∨ mediaName n = "djmarinara.py") with h1 | h1 <;>
    rw [h1] at hh <;> exact absurd hh (by decide)

lemma playlistName_notin_manifestSpec (n : Nat) :
    playlistName n ∉ manifestSpec := by
  intro h
  have hh := head_playlistName n
  rcases (by simpa [manifestSpec] using h :
      playlistName n = "font.ttf" ∨ playlistName n = "djmarinara.py") with h1 | h1 <;>
    rw [h1] at hh <;> exact absurd hh (by decide)

/-- C7: a full `cleanCache` run (age pass, usage pass, stray sweep) never
removes a file whose name is in the manifest allow-list, whatever the
directory contents and disk usage: the two media-directory passes only
ever delete `media<N>.flv` / `playlist<N>.txt` names, which the manifest
does not contain, and the stray sweep filters on the manifest
explicitly. -/
theorem c7_eviction_spares_manifest (now : ℚ) (st : DirState) :
    ∀ e ∈ (cleanCache now manifestSpec st).2, e.2 ∉ manifestSpec := by
  intro e he
  simp only [cleanCache] at he
  rcases List.mem_append.mp he with he | he
  · obtain ⟨n, _, hmem⟩ := List.mem_flatMap.mp he
    rcases (by simpa using hmem :
        e = (Loc.media, mediaName n) ∨ e = (Loc.media, playlistName n)) with
      rfl | rfl
    · exact mediaName_notin_manifestSpec n
    · exact playlistName_notin_manifestSpec n
  · obtain ⟨f, hf, rfl⟩ := List.mem_map.mp he
    have h2 := (List.mem_filter.mp hf).2
    simpa using h2

/-- Witness for C7: a working directory holding a stray file and the
protected font; only the stray is removed and its name is not in the
manifest. -/
theorem c7_eviction_spares_manifest_witness :
    ((Loc.work, "junk.bin") ∈
      (cleanCache 0 manifestSpec
        { mediaFiles := [], chainIds := [0], workFiles := ["font.ttf", "junk.bin"],
          otherUsed := 0, total := 100 }).2) ∧
    ((Loc.work, "junk.bin") : Loc × String).2 ∉ manifestSpec := by
  have hlog : (cleanCache 0 manifestSpec
      { mediaFiles := [], chainIds := [0], workFiles := ["font.ttf", "junk.bin"],
        otherUsed := 0, total := 100 }).2 = [(Loc.work, "junk.bin")] := by
    simp [cleanCache, sortMedia, agePassGo, usagePassGo, usedBytes,
      removedNames, manifestSpec]
  exact ⟨by rw [hlog]; simp,
    c7_eviction_spares_manifest 0
      { mediaFiles := [], chainIds := [0], workFiles := ["font.ttf", "junk.bin"],
        otherUsed := 0, total := 100 } (Loc.work, "junk.bin")
      (by rw [hlog]; simp)⟩

lemma sorted_head_zero (l : List Nat) (hp : List.Pairwise (fun a b : Nat => a ≤ b) l)
    (h0 : 0 ∈ l) : ∃ t, l = 0 :: t := by
  cases l with
  | nil => simp at h0
  | cons a t =>
    rcases List.mem_cons.mp h0 with h | h
    · exact ⟨t, by rw [← h]⟩
    · have ha := List.rel_of_pairwise_cons hp h
      have : a = 0 := by omega
      exact ⟨t, by rw [this]⟩

/-- C8: `updateStartup` sorts the present chain files in natural numeric
order, drops the bootstrap slot, and repoints `playlist0.txt` at the
startup asset plus the lowest-numbered remaining chain file; when only
the bootstrap remains it is a no-op. -/
theorem c8_advance_entry (ids : List Nat) (hnd : ids.Nodup) (h0 : 0 ∈ ids) :
    ((∀ k ∈ ids, k = 0) → updateStartup ids = none) ∧
    ∀ k0 ∈ ids, k0 ≠ 0 →
      ∃ m, updateStartup ids =
          some { name := "playlist0.txt", asset := "startup.flv",
                 next := playlistName m } ∧
        m ∈ ids ∧ m ≠ 0 ∧ ∀ j ∈ ids, j ≠ 0 → m ≤ j := by
  have hperm := sortChains_perm ids
  have hsorted := sortChains_sorted ids
  have hndS : (sortChains ids).Nodup := hperm.symm.nodup hnd
  obtain ⟨t, ht⟩ := sorted_head_zero _ hsorted (hperm.mem_iff.mpr h0)
  constructor
  · intro hall
    cases hte : t with
    | nil =>
      rw [updateStartup, ht, hte]
      rfl
    | cons x t2 =>
      exfalso
      have hx : x ∈ ids := hperm.mem_iff.mp (by simp [ht, hte])
      have hx0 : x = 0 := hall x hx
      rw [ht, hte, hx0] at hndS
      exact (List.nodup_cons.mp hndS).1 (by simp)
  · intro k0 hk0 hk0ne
    cases hte : t with
    | nil =>
      exfalso
      have hin : k0 ∈ sortChains ids := hperm.mem_iff.mpr hk0
      rw [ht, hte] at hin
      simp at hin
      exact hk0ne hin
    | cons m rest =>
      refine ⟨m, ?_, ?_, ?_, ?_⟩
      · rw [updateStartup, ht, hte]
        rfl
      · exact hperm.mem_iff.mp (by simp [ht, hte])
      · intro hm0
        rw [ht, hte, hm0] at hndS
        exact (List.nodup_cons.mp hndS).1 (by simp)
      · intro j hj hjne
        have hjS : j ∈ sortChains ids := hperm.mem_iff.mpr hj
        rw [ht, hte] at hjS
        have hp : List.Pairwise (fun a b : Nat => a ≤ b) (0 :: m :: rest) := by
          rw [ht, hte] at hsorted
          exact hsorted
        rcases List.mem_cons.mp hjS with h | h
        · omega
        · rcases List.mem_cons.mp h with h | h
          · omega
          · have := List.rel_of_pairwise_cons (List.pairwise_cons.mp hp).2 h
            omega

/-- Witness for C8: chain files 0, 2, 5 present; the theorem yields the
repoint at the oldest non-bootstrap chain file. -/
theorem c8_advance_entry_witness :
    ∃ m, updateStartup [0, 2, 5] =
        some { name := "playlist0.txt", asset := "startup.flv",
               next := playlistName m } ∧
      m ∈ [0, 2, 5] ∧ m ≠ 0 ∧ ∀ j ∈ [0, 2, 5], j ≠ 0 → m ≤ j :=
  (c8_advance_entry [0, 2, 5] (by decide) (by decide)).2 2 (by decide) (by decide)

lemma processFile_success (gl ts : ℚ) (st : DJ) (env : ProcEnv)
    (h : goodEnv gl env) :
    processFile gl ts st env =
      (updateQuality ts
        (addGas env.newduration { st with filenumber := st.filenumber + 1 })
        (env.newduration / env.wallTime), 1,
       [{ name := playlistName (st.filenumber + 1),
          asset := mediaName (st.filenumber + 1),
          next := playlistName (st.filenumber + 1 + 1) }]) := by
  obtain ⟨h1, h2, ⟨f, hf⟩, ⟨t, ht⟩, ⟨d, hd, hlen⟩, hsz, hcp⟩ := h
  simp [processFile, convertFile, h1, h2, hf, ht, hd, hlen, hsz, hcp, addGas]

lemma processFile_ret_one (gl ts : ℚ) (st : DJ) (env : ProcEnv)
    (h : goodEnv gl env) : (processFile gl ts st env).2.1 = 1 := by
  rw [processFile_success gl ts st env h]

lemma convertFile_none_of_title (ml : ℚ) (fn : Nat) (env : ProcEnv)
    (h : env.probe.title? = none) : convertFile ml fn env = none := by
  rcases hf : env.probe.filename? with _ | f <;> simp [convertFile, hf, h]

lemma convertFile_none_of_duration (ml : ℚ) (fn : Nat) (env : ProcEnv)
    (h : env.probe.duration? = none) : convertFile ml fn env = none := by
  rcases hf : env.probe.filename? with _ | f <;>
    rcases ht : env.probe.title? with _ | t <;> simp [convertFile, hf, ht, h]

lemma convertFile_none_of_maxlength (ml : ℚ) (fn : Nat) (env : ProcEnv)
    (d : ℚ) (hd : env.probe.duration? = some d) (hlen : ml < d) :
    convertFile ml fn env = none := by
  rcases hf : env.probe.filename? with _ | f <;>
    rcases ht : env.probe.title? with _ | t <;>
      simp [convertFile, hf, ht, hd, hlen]

lemma convertFile_none_of_size (ml : ℚ) (fn : Nat) (env : ProcEnv)
    (h : env.outputSize = 0) : convertFile ml fn env = none := by
  rcases hf : env.probe.filename? with _ | f <;>
    rcases ht : env.probe.title? with _ | t <;>
      rcases hd : env.probe.duration? with _ | d <;>
        simp [convertFile, hf, ht, hd, h]

lemma processFile_of_convert_none (gl ts : ℚ) (st : DJ) (env : ProcEnv)
    (h : convertFile (maxlength gl) st.filenumber env = none) :
    processFile gl ts st env = (st, 0, []) := by
  unfold processFile
  split
  · rfl
  · split
    · rfl
    · rw [h]

/-- C9: when the copy of the encoded video into the served directory
cannot complete, the attempt fails with return 0 and no state mutation:
the whole controller state (filenumber, gastank, crf, preset, clock
bookkeeping) is returned unchanged and no chain file is written. -/
theorem c9_copy_failure (gl ts : ℚ) (st : DJ) (env : ProcEnv)
    (h : env.copyOk = false) : processFile gl ts st env = (st, 0, []) := by
  unfold processFile
  split
  · rfl
  · split
    · rfl
    · split
      · rfl
      · simp [h]

/-- Witness for C9 at a concrete state and a fully successful attempt up
to the failing copy. -/
theorem c9_copy_failure_witness :
    processFile 3600 2
      { crf := 20, preset := 3, gastank := 100, elapsedtime := 0,
        starttime := 0, filenumber := 7, listhash := "h" }
      { fetchOk := true, sourcefile := "a.mp3",
        probe := { filename? := some "a.mp3", title? := some "A",
                   artist? := none, comment? := none, duration? := some 100 },
        newduration := 95, outputSize := 5, copyOk := false, wallTime := 50 } =
      ({ crf := 20, preset := 3, gastank := 100, elapsedtime := 0,
         starttime := 0, filenumber := 7, listhash := "h" }, 0, []) :=
  c9_copy_failure 3600 2 _ _ rfl

/-- C10: rejections before the media copy leave the controller state
untouched: a candidate whose extension is outside the allow-list is
skipped by `updatePlaylist` without even reaching `processFile`; a probe
report lacking a title or a duration, a probed duration exceeding
`gastanklimit / 2`, and a zero-size encode all make `processFile` return
0 with the state unchanged and no chain file written; in general every
return of 0 leaves the state exactly as it was, so tuning and gas updates
happen only on a fully successful production. -/
theorem c10_reject_frame (gl ts : ℚ) (st : DJ) (env : ProcEnv)
    (exts lines : List String) (i : Nat) (rest : List (Nat × ProcEnv)) :
    (extOf (lines.getD i "") ∉ exts →
      updatePlaylistRun gl ts exts lines st ((i, env) :: rest) =
        updatePlaylistRun gl ts exts lines st rest) ∧
    (env.probe.title? = none → processFile gl ts st env = (st, 0, [])) ∧
    (env.probe.duration? = none → processFile gl ts st env = (st, 0, [])) ∧
    (∀ d, env.probe.duration? = some d → maxlength gl < d →
      processFile gl ts st env = (st, 0, [])) ∧
    (env.outputSize = 0 → processFile gl ts st env = (st, 0, [])) ∧
    ((processFile gl ts st env).2.1 = 0 →
      processFile gl ts st env = (st, 0, [])) := by
  refine ⟨fun hskip => ?_, fun h => ?_, fun h => ?_, fun d hd hlen => ?_,
    fun h => ?_, fun h => ?_⟩
  · simp only [List.getD_eq_getElem?_getD] at hskip
    simp [updatePlaylistRun, hskip]
  · exact processFile_of_convert_none gl ts st env
      (convertFile_none_of_title _ _ _ h)
  · exact processFile_of_convert_none gl ts st env
      (convertFile_none_of_duration _ _ _ h)
  · exact processFile_of_convert_none gl ts st env
      (convertFile_none_of_maxlength _ _ _ d hd hlen)
  · exact processFile_of_convert_none gl ts st env
      (convertFile_none_of_size _ _ _ h)
  · revert h
    unfold processFile
    split
    · exact fun _ => rfl
    · split
      · exact fun _ => rfl
      · split
        · exact fun _ => rfl
        · split
          · exact fun _ => rfl
          · intro h
            norm_num at h

/-- Witness for C10: each rejection at a concrete input. -/
theorem c10_reject_frame_witness :
    (updatePlaylistRun 3600 2 ["mp3"] ["a.exe"]
        { crf := 20, preset := 3, gastank := 100, elapsedtime := 0,
          starttime := 0, filenumber := 7, listhash := "h" }
        [(0, { fetchOk := true, sourcefile := "a.exe",
               probe := { filename? := some "a.exe", title? := some "A",
                          artist? := none, comment? := none,
                          duration? := some 100 },
               newduration := 95, outputSize := 5, copyOk := true,
               wallTime := 50 })] =
      updatePlaylistRun 3600 2 ["mp3"] ["a.exe"]
        { crf := 20, preset := 3, gastank := 100, elapsedtime := 0,
          starttime := 0, filenumber := 7, listhash := "h" } []) ∧
    (processFile 3600 2
        { crf := 20, preset := 3, gastank := 100, elapsedtime := 0,
          starttime := 0, filenumber := 7, listhash := "h" }
        { fetchOk := true, sourcefile := "a.mp3",
          probe := { filename? := some "a.mp3", title? := none,
                     artist? := none, comment? := none, duration? := some 100 },
          newduration := 95, outputSize := 5, copyOk := true, wallTime := 50 } =
      ({ crf := 20, preset := 3, gastank := 100, elapsedtime := 0,
         starttime := 0, filenumber := 7, listhash := "h" }, 0, [])) ∧
    (processFile 3600 2
        { crf := 20, preset := 3, gastank := 100, elapsedtime := 0,
          starttime := 0, filenumber := 7, listhash := "h" }
        { fetchOk := true, sourcefile := "a.mp3",
          probe := { filename? := some "a.mp3", title? := some "A",
                     artist? := none, comment? := none, duration? := none },
          newduration := 95, outputSize := 5, copyOk := true, wallTime := 50 } =
      ({ crf := 20, preset := 3, gastank := 100, elapsedtime := 0,
         starttime := 0, filenumber := 7, listhash := "h" }, 0, [])) ∧
    (processFile 3600 2
        { crf := 20, preset := 3, gastank := 100, elapsedtime := 0,
          starttime := 0, filenumber := 7, listhash := "h" }
        { fetchOk := true, sourcefile := "a.mp3",
          probe := { filename? := some "a.mp3", title? := some "A",
                     artist? := none, comment? := none,
                     duration? := some 4000 },
          newduration := 95, outputSize := 5, copyOk := true, wallTime := 50 } =
      ({ crf := 20, preset := 3, gastank := 100, elapsedtime := 0,
         starttime := 0, filenumber := 7, listhash := "h" }, 0, [])) ∧
    (processFile 3600 2
        { crf := 20, preset := 3, gastank := 100, elapsedtime := 0,
          starttime := 0, filenumber := 7, listhash := "h" }
        { fetchOk := true, sourcefile := "a.mp3",
          probe := { filename? := some "a.mp3", title? := some "A",
                     artist? := none, comment? := none, duration? := some 100 },
          newduration := 95, outputSize := 0, copyOk := true, wallTime := 50 } =
      ({ crf := 20, preset := 3, gastank := 100, elapsedtime := 0,
         starttime := 0, filenumber := 7, listhash := "h" }, 0, [])) :=
  ⟨(c10_reject_frame 3600 2 _ _ ["mp3"] ["a.exe"] 0 []).1 (by decide),
   (c10_reject_frame 3600 2 _ _ [] [] 0 []).2.1 rfl,
   (c10_reject_frame 3600 2 _ _ [] [] 0 []).2.2.1 rfl,
   (c10_reject_frame 3600 2 _ _ [] [] 0 []).2.2.2.1 4000 rfl
     (by norm_num [maxlength]),
   (c10_reject_frame 3600 2 _ _ [] [] 0 []).2.2.2.2.1 rfl⟩

/-- C6: after a successful production (`ratio` being the converted
duration divided by the wall-clock seconds spent), the crf moves one step
toward the target (up when too slow, down when too fast, unchanged at
equality) and is clamped to `[mincrf, maxcrf] = [17, 28]`; the preset
moves exactly one step only outside the `targetspeed ± 0.5` dead-band —
down when `ratio < target - 0.5` and `preset > 0`, up when
`ratio > target + 0.5` and `preset < 8` — and is otherwise unchanged. -/
theorem c6_quality_step (gl ts ratio : ℚ) (st : DJ) (env : ProcEnv) :
    (goodEnv gl env →
      processFile gl ts st env =
        (updateQuality ts
          (addGas env.newduration { st with filenumber := st.filenumber + 1 })
          (env.newduration / env.wallTime), 1,
         [{ name := playlistName (st.filenumber + 1),
            asset := mediaName (st.filenumber + 1),
            next := playlistName (st.filenumber + 1 + 1) }])) ∧
    (ratio < ts →
      (updateQuality ts st ratio).crf = clamp (st.crf + 1) mincrf maxcrf) ∧
    (ts < ratio →
      (updateQuality ts st ratio).crf = clamp (st.crf - 1) mincrf maxcrf) ∧
    (ratio = ts →
      (updateQuality ts st ratio).crf = clamp st.crf mincrf maxcrf) ∧
    (ratio < ts - 1/2 → st.preset > 0 →
      (updateQuality ts st ratio).preset = st.preset - 1) ∧
    (ts + 1/2 < ratio → st.preset < 8 →
      (updateQuality ts st ratio).preset = st.preset + 1) ∧
    (¬(ratio < ts - 1/2 ∧ st.preset > 0) →
      ¬(ratio > ts + 1/2 ∧ st.preset < 8) →
      (updateQuality ts st ratio).preset = st.preset) ∧
    mincrf = 17 ∧ maxcrf = 28 := by
  refine ⟨processFile_success gl ts st env, fun h => ?_, fun h => ?_,
    fun h => ?_, fun h1 h2 => ?_, fun h1 h2 => ?_, fun hn1 hn2 => ?_,
    rfl, rfl⟩
  · dsimp only [updateQuality]
    rw [if_pos h]
  · dsimp only [updateQuality]
    rw [if_neg (by linarith), if_pos h]
  · dsimp only [updateQuality]
    rw [if_neg (by simp [h]), if_neg (by simp [h])]
  · dsimp only [updateQuality]
    rw [if_pos ⟨h1, h2⟩]
  · dsimp only [updateQuality]
    rw [if_neg (fun hc => absurd hc.1 (by linarith)), if_pos ⟨h1, h2⟩]
  · dsimp only [updateQuality]
    rw [if_neg hn1, if_neg hn2]

/-- Witness for C6: a successful attempt with ratio 95/50 = 1.9 against
target 2: crf moves up one step (clamped) and 1.9 is inside the dead-band
so the preset stays. -/
theorem c6_quality_step_witness :
    (processFile 3600 2
        { crf := 20, preset := 3, gastank := 100, elapsedtime := 0,
          starttime := 0, filenumber := 7, listhash := "h" }
        { fetchOk := true, sourcefile := "a.mp3",
          probe := { filename? := some "a.mp3", title? := some "A",
                     artist? := none, comment? := none, duration? := some 100 },
          newduration := 95, outputSize := 5, copyOk := true, wallTime := 50 } =
      (updateQuality 2
        (addGas 95
          { crf := 20, preset := 3, gastank := 100, elapsedtime := 0,
            starttime := 0, filenumber := 8, listhash := "h" })
        (95 / 50), 1,
       [{ name := playlistName 8, asset := mediaName 8,
          next := playlistName 9 }])) ∧
    ((updateQuality 2
        { crf := 20, preset := 3, gastank := 100, elapsedtime := 0,
          starttime := 0, filenumber := 7, listhash := "h" } (95 / 50)).crf =
      clamp (20 + 1) mincrf maxcrf) ∧
    ((updateQuality 2
        { crf := 20, preset := 3, gastank := 100, elapsedtime := 0,
          starttime := 0, filenumber := 7, listhash := "h" } (95 / 50)).preset =
      3) :=
  ⟨(c6_quality_step 3600 2 (95 / 50)
      { crf := 20, preset := 3, gastank := 100, elapsedtime := 0,
        starttime := 0, filenumber := 7, listhash := "h" }
      { fetchOk := true, sourcefile := "a.mp3",
        probe := { filename? := some "a.mp3", title? := some "A",
                   artist? := none, comment? := none, duration? := some 100 },
        newduration := 95, outputSize := 5, copyOk := true, wallTime := 50 }).1
    ⟨rfl, by decide, ⟨"a.mp3", rfl⟩, ⟨"A", rfl⟩,
     ⟨100, rfl, by norm_num [maxlength]⟩, by decide, rfl⟩,
   (c6_quality_step 3600 2 (95 / 50)
      { crf := 20, preset := 3, gastank := 100, elapsedtime := 0,
        starttime := 0, filenumber := 7, listhash := "h" }
      { fetchOk := true, sourcefile := "", probe := ⟨none, none, none, none, none⟩,
        newduration := 0, outputSize := 0, copyOk := false,
        wallTime := 0 }).2.1 (by norm_num),
   (c6_quality_step 3600 2 (95 / 50)
      { crf := 20, preset := 3, gastank := 100, elapsedtime := 0,
        starttime := 0, filenumber := 7, listhash := "h" }
      { fetchOk := true, sourcefile := "", probe := ⟨none, none, none, none, none⟩,
        newduration := 0, outputSize := 0, copyOk := false,
        wallTime := 0 }).2.2.2.2.2.2.1
     (by rintro ⟨hc, _⟩; norm_num at hc) (by rintro ⟨hc, _⟩; norm_num at hc)⟩

lemma updatePlaylistRun_cons (gl ts : ℚ) (exts lines : List String) (st : DJ)
    (i : Nat) (env : ProcEnv) (rest : List (Nat × ProcEnv)) :
    updatePlaylistRun gl ts exts lines st ((i, env) :: rest) =
      if extOf (lines.getD i "") ∈ exts then
        if (processFile gl ts st env).2.1 = 0 then
          ((updatePlaylistRun gl ts exts lines
              (processFile gl ts st env).1 rest).1,
           (updatePlaylistRun gl ts exts lines
              (processFile gl ts st env).1 rest).2.1,
           lines.getD i "" ::
             (updatePlaylistRun gl ts exts lines
                (processFile gl ts st env).1 rest).2.2)
        else ((processFile gl ts st env).1, some (lines.getD i ""),
              [lines.getD i ""])
      else updatePlaylistRun gl ts exts lines st rest := rfl

/-- C5: a production cycle only ever hands candidates whose lowercased
final extension is in the allow-list to `processFile`; other picks are
skipped without counting as failures.  On the list
["http://x/a.mp3", "http://x/b.exe"] with allow-list {mp3}, b.exe is
never processed, and once the random oracle picks a.mp3 on an attempt
whose external steps all succeed, the cycle ends having queued a.mp3. -/
theorem c5_allowlist (gl ts : ℚ) :
    (∀ (exts lines : List String) (st : DJ) oracle c,
      c ∈ (updatePlaylistRun gl ts exts lines st oracle).2.2 →
        extOf c ∈ exts) ∧
    (∀ (st : DJ) oracle,
      "http://x/b.exe" ∉
        (updatePlaylistRun gl ts ["mp3"] ["http://x/a.mp3", "http://x/b.exe"]
          st oracle).2.2) ∧
    (∀ (st : DJ) oracle env, goodEnv gl env → (0, env) ∈ oracle →
      (updatePlaylistRun gl ts ["mp3"] ["http://x/a.mp3", "http://x/b.exe"]
        st oracle).2.1 = some "http://x/a.mp3") := by
  have part1 : ∀ (exts lines : List String) (st : DJ) oracle c,
      c ∈ (updatePlaylistRun gl ts exts lines st oracle).2.2 →
        extOf c ∈ exts := by
    intro exts lines st oracle
    induction oracle generalizing st with
    | nil =>
      intro c hc
      simp [updatePlaylistRun] at hc
    | cons p rest ih =>
      obtain ⟨i, env⟩ := p
      intro c hc
      rw [updatePlaylistRun_cons] at hc
      by_cases hif : extOf (lines.getD i "") ∈ exts
      · rw [if_pos hif] at hc
        by_cases hz : (processFile gl ts st env).2.1 = 0
        · rw [if_pos hz] at hc
          rcases List.mem_cons.mp hc with h | h
          · rw [h]
            exact hif
          · exact ih _ c h
        · rw [if_neg hz] at hc
          rcases List.mem_singleton.mp hc with rfl
          exact hif
      · rw [if_neg hif] at hc
        exact ih _ c hc
  refine ⟨part1, fun st oracle hmem => ?_, ?_⟩
  · have := part1 _ _ _ _ _ hmem
    revert this
    decide
  · intro st oracle env hgood hin
    induction oracle generalizing st with
    | nil => simp at hin
    | cons p rest ih =>
      obtain ⟨j, e⟩ := p
      rw [updatePlaylistRun_cons]
      rcases List.mem_cons.mp hin with he | he
      · injection he with h1 h2
        subst h1
        subst h2
        rw [if_pos (by decide),
            if_neg (by simp [processFile_ret_one gl ts st env hgood])]
        rfl
      · by_cases hif :
            extOf (["http://x/a.mp3", "http://x/b.exe"].getD j "") ∈ ["mp3"]
        · rw [if_pos hif]
          by_cases hz : (processFile gl ts st e).2.1 = 0
          · rw [if_pos hz]
            exact ih _ he
          · rw [if_neg hz]
            rcases j with _ | _ | j
            · rfl
            · exfalso
              revert hif
              decide
            · exfalso
              have hget : ["http://x/a.mp3", "http://x/b.exe"].getD (j + 2) "" =
                  "" := rfl
              rw [hget] at hif
              revert hif
              decide
        · rw [if_neg hif]
          exact ih _ he

/-- Witness for C5: the oracle picks b.exe, then an out-of-range line,
then a.mp3 with a fully successful attempt; b.exe is never processed and
a.mp3 is queued. -/
theorem c5_allowlist_witness :
    ("http://x/b.exe" ∉
      (updatePlaylistRun 3600 2 ["mp3"] ["http://x/a.mp3", "http://x/b.exe"]
        { crf := 17, preset := 0, gastank := 0, elapsedtime := 0,
          starttime := 0, filenumber := 0, listhash := "" }
        [(1, { fetchOk := true, sourcefile := "a.mp3",
               probe := { filename? := some "a.mp3", title? := some "A",
                          artist? := none, comment? := none,
                          duration? := some 100 },
               newduration := 95, outputSize := 5, copyOk := true,
               wallTime := 50 }),
         (5, { fetchOk := true, sourcefile := "a.mp3",
               probe := { filename? := some "a.mp3", title? := some "A",
                          artist? := none, comment? := none,
                          duration? := some 100 },
               newduration := 95, outputSize := 5, copyOk := true,
               wallTime := 50 }),
         (0, { fetchOk := true, sourcefile := "a.mp3",
               probe := { filename? := some "a.mp3", title? := some "A",
                          artist? := none, comment? := none,
                          duration? := some 100 },
               newduration := 95, outputSize := 5, copyOk := true,
               wallTime := 50 })]).2.2) ∧
    ((updatePlaylistRun 3600 2 ["mp3"] ["http://x/a.mp3", "http://x/b.exe"]
        { crf := 17, preset := 0, gastank := 0, elapsedtime := 0,
          starttime := 0, filenumber := 0, listhash := "" }
        [(1, { fetchOk := true, sourcefile := "a.mp3",
               probe := { filename? := some "a.mp3", title? := some "A",
                          artist? := none, comment? := none,
                          duration? := some 100 },
               newduration := 95, outputSize := 5, copyOk := true,
               wallTime := 50 }),
         (5, { fetchOk := true, sourcefile := "a.mp3",
               probe := { filename? := some "a.mp3", title? := some "A",
                          artist? := none, comment? := none,
                          duration? := some 100 },
               newduration := 95, outputSize := 5, copyOk := true,
               wallTime := 50 }),
         (0, { fetchOk := true, sourcefile := "a.mp3",
               probe := { filename? := some "a.mp3", title? := some "A",
                          artist? := none, comment? := none,
                          duration? := some 100 },
               newduration := 95, outputSize := 5, copyOk := true,
               wallTime := 50 })]).2.1 = some "http://x/a.mp3") :=
  ⟨(c5_allowlist 3600 2).2.1 _ _,
   (c5_allowlist 3600 2).2.2 _ _
     { fetchOk := true, sourcefile := "a.mp3",
       probe := { filename? := some "a.mp3", title? := some "A",
                  artist? := none, comment? := none, duration? := some 100 },
       newduration := 95, outputSize := 5, copyOk := true, wallTime := 50 }
     ⟨rfl, by decide, ⟨"a.mp3", rfl⟩, ⟨"A", rfl⟩,
      ⟨100, rfl, by norm_num [maxlength]⟩, by decide, rfl⟩
     (by simp)⟩

end Djmarinara
